import Mathlib

/-!
Verification of the prometheus-gitlab-exporter core (src/project.go).

The Go source is shallowly embedded:
* the data model (ProjectStats, Project, MergeRequest) becomes Lean structures,
  with Go int as Int and time.Time fields kept as their Unix-second Int value
  (the renderer only ever reads LastActivityAt.Unix());
* the network is an oracle function from a page index to either a transport or
  decode failure (http.Get error / json Decode error, both of which the Go code
  feeds to log.Fatalf) or a decoded page body together with the list of values
  of the X-Next-Page response header;
* the unbounded Go loops (for true) are embedded with an explicit fuel
  parameter; the result none means the loop did not finish within the given
  fuel, and some carries either the fatal outcome (log.Fatalf / runtime panic)
  or the value the Go function returns;
* strconv.Atoi is modelled faithfully including the sign handling and the
  64-bit range check (goAtoi below);
* indexing the X-Next-Page header slice with [0] when the header is absent is
  a Go runtime panic, modelled by the FetchError.panicMissingHeader outcome.
-/

namespace GitlabExporter

/-- Embeds the Go struct ProjectStats of src/project.go (five int counters). -/
structure ProjectStats where
  commitCount : Int
  storageSize : Int
  repositorySize : Int
  lfsObjectSize : Int
  jobArtifactsSize : Int
  deriving Repr, DecidableEq

/-- Embeds the Go struct MergeRequest of src/project.go; the two time.Time
fields are kept as Unix-second integers. -/
structure MergeRequest where
  title : String
  state : String
  mergeStatus : String
  targetBranch : String
  createdAt : Int
  updatedAt : Int
  deriving Repr, DecidableEq

/-- Embeds the Go struct Project of src/project.go; LastActivityAt is kept as
its Unix-second integer since the renderer only reads LastActivityAt.Unix(). -/
structure Project where
  id : Int
  pathWithNamespace : String
  starCount : Int
  forkCount : Int
  openIssueCount : Int
  lastActivityAt : Int
  statistics : ProjectStats
  mergeRequests : List MergeRequest
  deriving Repr, DecidableEq

/-- Embeds the Go method (project *Project) SetMergeRequests: replaces the
MergeRequests field and changes nothing else. -/
def Project.setMergeRequests (project : Project) (mergeRequests : List MergeRequest) : Project :=
  { project with mergeRequests := mergeRequests }

/-! ### strconv.Atoi -/

/-- Value of a decimal digit character, none for a non-digit (the per-byte
check of Go strconv.ParseUint in base 10). -/
def digitVal (c : Char) : Option Nat :=
  if c = '0' then some 0
  else if c = '1' then some 1
  else if c = '2' then some 2
  else if c = '3' then some 3
  else if c = '4' then some 4
  else if c = '5' then some 5
  else if c = '6' then some 6
  else if c = '7' then some 7
  else if c = '8' then some 8
  else if c = '9' then some 9
  else none

/-- Left-to-right accumulation of decimal digits (Go strconv.ParseUint base 10
on the digit part); none as soon as a non-digit is met. -/
def parseDigitsAux : List Char → Nat → Option Nat
  | [], acc => some acc
  | c :: cs, acc =>
    match digitVal c with
    | none => none
    | some d => parseDigitsAux cs (acc * 10 + d)

/-- Largest value of the Go type int on a 64-bit platform (math.MaxInt64). -/
def int64Max : Nat := 9223372036854775807

/-- Magnitude of the smallest value of the Go type int on a 64-bit platform. -/
def int64MinMag : Nat := 9223372036854775808

/-- Embeds Go strconv.Atoi on a 64-bit platform: optional single sign, then a
nonempty run of decimal digits, with the int64 range check; none is the
non-nil error case. -/
def goAtoi (s : String) : Option Int :=
  match s.toList with
  | [] => none
  | c :: rest =>
    if c = '+' then
      match rest with
      | [] => none
      | r :: rs =>
        match parseDigitsAux (r :: rs) 0 with
        | none => none
        | some m => if m ≤ int64Max then some (Int.ofNat m) else none
    else if c = '-' then
      match rest with
      | [] => none
      | r :: rs =>
        match parseDigitsAux (r :: rs) 0 with
        | none => none
        | some m => if m ≤ int64MinMag then some (-(Int.ofNat m)) else none
    else
      match parseDigitsAux (c :: rest) 0 with
      | none => none
      | some m => if m ≤ int64Max then some (Int.ofNat m) else none

/-! ### Decimal rendering, used to build the mocked X-Next-Page header values
(the upstream API sends the next page number as a decimal string). -/

/-- The decimal digit character for a value below ten. -/
def decDigitChar : Nat → Char
  | 0 => '0'
  | 1 => '1'
  | 2 => '2'
  | 3 => '3'
  | 4 => '4'
  | 5 => '5'
  | 6 => '6'
  | 7 => '7'
  | 8 => '8'
  | _ => '9'

/-- Decimal digit list of a natural number, most significant first, with a
fuel argument making the recursion structural. -/
def decDigitsAux : Nat → Nat → List Char
  | 0, _ => []
  | fuel + 1, n =>
    if n < 10 then [decDigitChar n]
    else decDigitsAux fuel (n / 10) ++ [decDigitChar (n % 10)]

/-- The decimal string of a natural number. -/
def natToDec (n : Nat) : String := String.mk (decDigitsAux (n + 1) n)

theorem natToDec_twelve : natToDec 12 = "12" := by decide

theorem natToDec_seven : natToDec 7 = "7" := by decide

theorem digitVal_decDigitChar (d : Nat) (h : d < 10) : digitVal (decDigitChar d) = some d := by
  interval_cases d <;> rfl

theorem parseDigitsAux_append (xs ys : List Char) (acc : Nat) :
    parseDigitsAux (xs ++ ys) acc =
      match parseDigitsAux xs acc with
      | none => none
      | some m => parseDigitsAux ys m := by
  induction xs generalizing acc with
  | nil => rfl
  | cons c cs ih =>
    simp only [List.cons_append, parseDigitsAux]
    cases digitVal c with
    | none => rfl
    | some d => exact ih _

theorem parseDigitsAux_decDigitsAux (fuel : Nat) :
    ∀ n acc, n < fuel →
      parseDigitsAux (decDigitsAux fuel n) acc =
        some (acc * 10 ^ (decDigitsAux fuel n).length + n) := by
  induction fuel with
  | zero => intro n acc h; omega
  | succ f ih =>
    intro n acc h
    by_cases h10 : n < 10
    · simp only [decDigitsAux, if_pos h10]
      simp only [parseDigitsAux, digitVal_decDigitChar n h10, List.length_cons,
        List.length_nil, pow_one, zero_add]
    · simp only [decDigitsAux, if_neg h10]
      rw [parseDigitsAux_append]
      have hn : n / 10 < f := by omega
      rw [ih (n / 10) acc hn]
      simp only [parseDigitsAux, digitVal_decDigitChar (n % 10) (by omega),
        List.length_append, List.length_cons, List.length_nil]
      congr 1
      have hmod : 10 * (n / 10) + n % 10 = n := Nat.div_add_mod n 10
      have hpow : 10 ^ ((decDigitsAux f (n / 10)).length + (0 + 1)) =
          10 ^ (decDigitsAux f (n / 10)).length * 10 := by
        rw [zero_add, pow_succ]
      rw [hpow]
      ring_nf
      omega

theorem decDigitsAux_mem (fuel : Nat) :
    ∀ n c, c ∈ decDigitsAux fuel n → ∃ d, d < 10 ∧ c = decDigitChar d := by
  induction fuel with
  | zero => intro n c hc; simp [decDigitsAux] at hc
  | succ f ih =>
    intro n c hc
    by_cases h10 : n < 10
    · simp only [decDigitsAux, if_pos h10, List.mem_singleton] at hc
      exact ⟨n, h10, hc⟩
    · simp only [decDigitsAux, if_neg h10, List.mem_append, List.mem_singleton] at hc
      rcases hc with hc | hc
      · exact ih _ _ hc
      · exact ⟨n % 10, by omega, hc⟩

theorem decDigitsAux_ne_nil (fuel n : Nat) (h : n < fuel) : decDigitsAux fuel n ≠ [] := by
  cases fuel with
  | zero => omega
  | succ f =>
    by_cases h10 : n < 10
    · simp [decDigitsAux, if_pos h10]
    · simp [decDigitsAux, if_neg h10]

theorem decDigitChar_ne_plus (d : Nat) (h : d < 10) : decDigitChar d ≠ '+' := by
  interval_cases d <;> decide

theorem decDigitChar_ne_minus (d : Nat) (h : d < 10) : decDigitChar d ≠ '-' := by
  interval_cases d <;> decide

/-- Round trip: Go strconv.Atoi parses the decimal rendering of any natural
number in the int64 range back to itself. -/
theorem goAtoi_natToDec (n : Nat) (h : n ≤ int64Max) : goAtoi (natToDec n) = some (Int.ofNat n) := by
  have hne : decDigitsAux (n + 1) n ≠ [] := decDigitsAux_ne_nil _ _ (Nat.lt_succ_self n)
  obtain ⟨c, rest, hcr⟩ : ∃ c rest, decDigitsAux (n + 1) n = c :: rest := by
    cases hd : decDigitsAux (n + 1) n with
    | nil => exact absurd hd hne
    | cons c rest => exact ⟨c, rest, rfl⟩
  have hcmem : c ∈ decDigitsAux (n + 1) n := by rw [hcr]; exact List.mem_cons_self c rest
  obtain ⟨d, hd10, hcd⟩ := decDigitsAux_mem _ _ _ hcmem
  have hplus : c ≠ '+' := hcd ▸ decDigitChar_ne_plus d hd10
  have hminus : c ≠ '-' := hcd ▸ decDigitChar_ne_minus d hd10
  have hparse : parseDigitsAux (decDigitsAux (n + 1) n) 0 =
      some (0 * 10 ^ (decDigitsAux (n + 1) n).length + n) :=
    parseDigitsAux_decDigitsAux (n + 1) n 0 (Nat.lt_succ_self n)
  rw [zero_mul, zero_add] at hparse
  have hlist : (natToDec n).toList = c :: rest := by
    simp only [natToDec, String.toList]
    exact hcr
  simp only [goAtoi, hlist, if_neg hplus, if_neg hminus]
  rw [← hcr, hparse]
  simp only [if_pos h]

/-! ### The paginated fetch loops -/

/-- Outcome of one network-and-decode step: http.Get returning a non-nil
error, or json Decode returning a non-nil error. -/
inductive ApiError where
  | transport
  | decode
  deriving Repr, DecidableEq

/-- A decoded page body together with the list of values of the X-Next-Page
response header (the Go slice response.Header with that key; an absent header
is the empty list). -/
structure PageResponse (α : Type) where
  items : List α
  xNextPage : List String
  deriving Repr, DecidableEq

/-- The ways a fetch loop iteration aborts the whole process in the Go code:
log.Fatalf on a transport error, on a decode error or on a strconv.Atoi
error, and the runtime panic from indexing the absent X-Next-Page header
slice at position 0. -/
inductive FetchError where
  | fatalTransport
  | fatalDecode
  | panicMissingHeader
  | fatalAtoi
  deriving Repr, DecidableEq

/-- Embeds the pagination loop shared by GetMergeRequests and GetRepositories
(src/project.go): request the current page from the oracle, append the decoded
items to the accumulator, then read entry 0 of the X-Next-Page header values —
empty string returns the accumulator, otherwise strconv.Atoi gives the next
page. The trace of requested page indices is returned alongside the items;
fuel bounds the unbounded Go loop, none meaning it did not finish in fuel
iterations. This function, applied to the merge-request page oracle of one
project, is exactly the body of GetMergeRequests. -/
def fetchLoop {α : Type} (api : Int → Except ApiError (PageResponse α)) :
    Nat → Int → List α → List Int → Option (Except FetchError (List α × List Int))
  | 0, _, _, _ => none
  | fuel + 1, page, acc, reqs =>
    match api page with
    | Except.error ApiError.transport => some (Except.error FetchError.fatalTransport)
    | Except.error ApiError.decode => some (Except.error FetchError.fatalDecode)
    | Except.ok resp =>
      match resp.xNextPage with
      | [] => some (Except.error FetchError.panicMissingHeader)
      | h :: _ =>
        if h = "" then some (Except.ok (acc ++ resp.items, reqs ++ [page]))
        else
          match goAtoi h with
          | none => some (Except.error FetchError.fatalAtoi)
          | some n => fetchLoop api fuel n (acc ++ resp.items) (reqs ++ [page])

/-- Embeds the Go method (project Project) GetMergeRequests: run the shared
pagination loop against the merge-request endpoint of this project's id,
starting at page 1 with an empty accumulator. The oracle takes the project id
and the page index (gitlabUrl, token and per_page=100 are fixed parts of the
URL the oracle stands for). -/
def Project.getMergeRequests (project : Project)
    (api : Int → Int → Except ApiError (PageResponse MergeRequest)) (fuel : Nat) :
    Option (Except FetchError (List MergeRequest × List Int)) :=
  fetchLoop (api project.id) fuel 1 [] []

/-- Embeds the per-page enrichment loop of GetRepositories (src/project.go
lines 140-143): for each decoded project in page order, run GetMergeRequests
and attach the result with SetMergeRequests; a fatal outcome of any inner
fetch aborts everything, exactly as log.Fatalf does. -/
def enrichPage (mrApi : Int → Int → Except ApiError (PageResponse MergeRequest))
    (innerFuel : Nat) : List Project → Option (Except FetchError (List Project))
  | [] => some (Except.ok [])
  | p :: rest =>
    match p.getMergeRequests mrApi innerFuel with
    | none => none
    | some (Except.error e) => some (Except.error e)
    | some (Except.ok (mrs, _)) =>
      match enrichPage mrApi innerFuel rest with
      | none => none
      | some (Except.error e) => some (Except.error e)
      | some (Except.ok ps) => some (Except.ok (p.setMergeRequests mrs :: ps))

/-- Embeds the loop of GetRepositories (src/project.go): request the current
projects page, enrich every decoded project of the page with its merge
requests, append the enriched page to the accumulator, then the same
X-Next-Page handling as the merge-request loop. -/
def getRepositoriesLoop (projApi : Int → Except ApiError (PageResponse Project))
    (mrApi : Int → Int → Except ApiError (PageResponse MergeRequest)) (innerFuel : Nat) :
    Nat → Int → List Project → List Int →
      Option (Except FetchError (List Project × List Int))
  | 0, _, _, _ => none
  | fuel + 1, page, acc, reqs =>
    match projApi page with
    | Except.error ApiError.transport => some (Except.error FetchError.fatalTransport)
    | Except.error ApiError.decode => some (Except.error FetchError.fatalDecode)
    | Except.ok resp =>
      match enrichPage mrApi innerFuel resp.items with
      | none => none
      | some (Except.error e) => some (Except.error e)
      | some (Except.ok enriched) =>
        match resp.xNextPage with
        | [] => some (Except.error FetchError.panicMissingHeader)
        | h :: _ =>
          if h = "" then some (Except.ok (acc ++ enriched, reqs ++ [page]))
          else
            match goAtoi h with
            | none => some (Except.error FetchError.fatalAtoi)
            | some n => getRepositoriesLoop projApi mrApi innerFuel fuel n
                (acc ++ enriched) (reqs ++ [page])

/-- Embeds the Go function GetRepositories: the loop above from page 1 with
empty accumulators. -/
def getRepositories (projApi : Int → Except ApiError (PageResponse Project))
    (mrApi : Int → Int → Except ApiError (PageResponse MergeRequest))
    (innerFuel fuel : Nat) : Option (Except FetchError (List Project × List Int)) :=
  getRepositoriesLoop projApi mrApi innerFuel fuel 1 [] []

/-! ### Mocked paged endpoints -/

/-- A mocked paged endpoint with exactly N pages: page k (1 ≤ k ≤ N) decodes
to pages k and carries the continuation signal k+1 as a decimal string for
k < N and the empty string at k = N; any other page index is a transport
error. -/
def mockPagedApi {α : Type} (N : Nat) (pages : Nat → List α) (p : Int) :
    Except ApiError (PageResponse α) :=
  if 1 ≤ p ∧ p ≤ (N : Int) then
    Except.ok { items := pages p.toNat,
                xNextPage := [if p = (N : Int) then "" else natToDec (p.toNat + 1)] }
  else Except.error ApiError.transport

/-- Concatenation of the pages k, k+1, ..., k+cnt-1 in page order. -/
def pagesConcat {α : Type} (pages : Nat → List α) : Nat → Nat → List α
  | _, 0 => []
  | k, cnt + 1 => pages k ++ pagesConcat pages (k + 1) cnt

/-- The page indices k, k+1, ..., k+cnt-1 in request order. -/
def pageReqs : Nat → Nat → List Int
  | _, 0 => []
  | k, cnt + 1 => (k : Int) :: pageReqs (k + 1) cnt

theorem pageReqs_length : ∀ k cnt, (pageReqs k cnt).length = cnt := by
  intro k cnt
  induction cnt generalizing k with
  | zero => rfl
  | succ c ih => simp [pageReqs, ih]

theorem natToDec_ne_empty (m : Nat) : natToDec m ≠ "" := by
  intro h
  have hdata := congrArg String.toList h
  simp only [natToDec, String.toList] at hdata
  exact decDigitsAux_ne_nil (m + 1) m (Nat.lt_succ_self m) hdata

theorem mockPagedApi_eq_last {α : Type} (N : Nat) (pages : Nat → List α) (k : Nat)
    (h1 : 1 ≤ k) (h2 : k = N) :
    mockPagedApi N pages (k : Int) = Except.ok ⟨pages k, [""]⟩ := by
  subst h2
  simp only [mockPagedApi]
  rw [if_pos ⟨by exact_mod_cast h1, le_refl _⟩]
  have ht : ((k : Int)).toNat = k := by omega
  simp [ht]

theorem mockPagedApi_eq_mid {α : Type} (N : Nat) (pages : Nat → List α) (k : Nat)
    (h1 : 1 ≤ k) (h2 : k < N) :
    mockPagedApi N pages (k : Int) = Except.ok ⟨pages k, [natToDec (k + 1)]⟩ := by
  simp only [mockPagedApi]
  have hc : 1 ≤ (k : Int) ∧ (k : Int) ≤ (N : Int) :=
    ⟨by exact_mod_cast h1, by exact_mod_cast Nat.le_of_lt h2⟩
  have hne : (k : Int) ≠ (N : Int) := by exact_mod_cast Nat.ne_of_lt h2
  rw [if_pos hc, if_neg hne]
  have ht : ((k : Int)).toNat = k := by omega
  rw [ht]

/-- If every project's merge-request fetch succeeds with a known value, the
per-page enrichment loop maps SetMergeRequests of that value over the page. -/
theorem enrichPage_map (mrApi : Int → Int → Except ApiError (PageResponse MergeRequest))
    (innerFuel : Nat) (f : Project → List MergeRequest) (g : Project → List Int)
    (henrich : ∀ q : Project,
      q.getMergeRequests mrApi innerFuel = some (Except.ok (f q, g q))) :
    ∀ l : List Project, enrichPage mrApi innerFuel l =
      some (Except.ok (l.map (fun q => q.setMergeRequests (f q)))) := by
  intro l
  induction l with
  | nil => rfl
  | cons p rest ih => simp only [enrichPage, henrich p, ih, List.map_cons]

/-- Running the repository loop against the N-page mock from page k with
cnt+1 pages left (k + cnt = N) consumes exactly pages k..N in order. -/
theorem getRepositoriesLoop_mock_run
    (N : Nat) (pages : Nat → List Project)
    (mrApi : Int → Int → Except ApiError (PageResponse MergeRequest))
    (innerFuel : Nat) (f : Project → List MergeRequest) (g : Project → List Int)
    (henrich : ∀ q : Project,
      q.getMergeRequests mrApi innerFuel = some (Except.ok (f q, g q)))
    (hN : N ≤ int64Max) :
    ∀ cnt k fuel acc reqs, 1 ≤ k → k + cnt = N → cnt + 1 ≤ fuel →
      getRepositoriesLoop (mockPagedApi N pages) mrApi innerFuel fuel (k : Int) acc reqs =
        some (Except.ok
          (acc ++ (pagesConcat pages k (cnt + 1)).map (fun q => q.setMergeRequests (f q)),
           reqs ++ pageReqs k (cnt + 1))) := by
  intro cnt
  induction cnt with
  | zero =>
    intro k fuel acc reqs hk hkN hfuel
    obtain ⟨fl, rfl⟩ : ∃ fl, fuel = fl + 1 := ⟨fuel - 1, by omega⟩
    have hapi := mockPagedApi_eq_last N pages k hk (by omega)
    simp only [getRepositoriesLoop, hapi,
      enrichPage_map mrApi innerFuel f g henrich]
    simp [pagesConcat, pageReqs]
  | succ c ih =>
    intro k fuel acc reqs hk hkN hfuel
    obtain ⟨fl, rfl⟩ : ∃ fl, fuel = fl + 1 := ⟨fuel - 1, by omega⟩
    have hapi := mockPagedApi_eq_mid N pages k hk (by omega)
    have hne : natToDec (k + 1) ≠ "" := natToDec_ne_empty (k + 1)
    have hatoi : goAtoi (natToDec (k + 1)) = some (Int.ofNat (k + 1)) :=
      goAtoi_natToDec (k + 1) (by omega)
    simp only [getRepositoriesLoop, hapi,
      enrichPage_map mrApi innerFuel f g henrich, if_neg hne, hatoi]
    rw [show (Int.ofNat (k + 1)) = ((k + 1 : Nat) : Int) from rfl]
    rw [ih (k + 1) fl (acc ++ (pages k).map (fun q => q.setMergeRequests (f q)))
      (reqs ++ [(k : Int)]) (by omega) (by omega) (by omega)]
    simp [pagesConcat, pageReqs, List.map_append, List.append_assoc]

/-- Claim C1: for a mocked sequence of N pages where page k's continuation
signal is k+1 for k < N and the empty string at k = N, the project fetcher
issues exactly N page requests (the request trace is the page indices 1..N,
of length N) and returns the concatenation of all N pages' decoded items in
page order, each enriched with its merge requests. -/
theorem c1_fetches_exactly_n_pages_in_order
    (N : Nat) (pages : Nat → List Project)
    (mrApi : Int → Int → Except ApiError (PageResponse MergeRequest))
    (innerFuel fuel : Nat) (f : Project → List MergeRequest) (g : Project → List Int)
    (henrich : ∀ q : Project,
      q.getMergeRequests mrApi innerFuel = some (Except.ok (f q, g q)))
    (hN1 : 1 ≤ N) (hN : N ≤ int64Max) (hfuel : N ≤ fuel) :
    getRepositories (mockPagedApi N pages) mrApi innerFuel fuel =
      some (Except.ok ((pagesConcat pages 1 N).map (fun q => q.setMergeRequests (f q)),
        pageReqs 1 N)) ∧
    (pageReqs 1 N).length = N := by
  constructor
  · have h := getRepositoriesLoop_mock_run N pages mrApi innerFuel f g henrich hN
      (N - 1) 1 fuel [] [] (le_refl 1) (by omega) (by omega)
    have hc : N - 1 + 1 = N := by omega
    rw [hc] at h
    unfold getRepositories
    simpa using h
  · exact pageReqs_length 1 N

/-- One-item pages used to instantiate the C1 theorem concretely. -/
def c1WitnessPages : Nat → List Project := fun k =>
  [{ id := (k : Int), pathWithNamespace := "g/p", starCount := 0, forkCount := 0,
     openIssueCount := 0, lastActivityAt := 0,
     statistics := ⟨0, 0, 0, 0, 0⟩, mergeRequests := [] }]

/-- A merge-request endpoint answering every request with one empty page. -/
def c1WitnessMrApi : Int → Int → Except ApiError (PageResponse MergeRequest) :=
  fun _ _ => Except.ok { items := [], xNextPage := [""] }

theorem c1_witness :
    getRepositories (mockPagedApi 3 c1WitnessPages) c1WitnessMrApi 1 3 =
      some (Except.ok ((pagesConcat c1WitnessPages 1 3).map
        (fun q => q.setMergeRequests []), pageReqs 1 3)) ∧
    (pageReqs 1 3).length = 3 :=
  c1_fetches_exactly_n_pages_in_order 3 c1WitnessPages c1WitnessMrApi 1 3
    (fun _ => []) (fun _ => [(1 : Int)]) (fun _ => rfl)
    (by decide) (by decide) (by decide)

/-! ### Single-step behaviour of the continuation signal -/

/-- An endpoint whose response carries no X-Next-Page header at all. -/
def absentHeaderApi : Int → Except ApiError (PageResponse MergeRequest) :=
  fun _ => Except.ok { items := [], xNextPage := [] }

/-- Claim C2 counterexample: on a response with the X-Next-Page header absent
(no header values), the merge-request fetch loop does not terminate normally
with the accumulated sequence; it hits the runtime panic from indexing the
absent header slice at position 0. -/
theorem c2_counterexample :
    fetchLoop absentHeaderApi 5 1 [] [] =
      some (Except.error FetchError.panicMissingHeader) ∧
    fetchLoop absentHeaderApi 5 1 [] [] ≠
      some (Except.ok ([], [(1 : Int)])) :=
  ⟨rfl, fun h => Except.noConfusion (Option.some.inj h)⟩

/-- Claim C2 (amended): for every response whose continuation signal is
PRESENT and equal to the empty string, both fetch loops terminate normally and
return the sequence accumulated across all pages so far; when the signal is
absent, reading it faults (see the counterexample). -/
theorem c2_amended_empty_signal_terminates :
    (∀ (api : Int → Except ApiError (PageResponse MergeRequest)) (page : Int)
      (fuel : Nat) (acc : List MergeRequest) (reqs : List Int)
      (resp : PageResponse MergeRequest) (t : List String),
      api page = Except.ok resp → resp.xNextPage = "" :: t →
      fetchLoop api (fuel + 1) page acc reqs =
        some (Except.ok (acc ++ resp.items, reqs ++ [page]))) ∧
    (∀ (projApi : Int → Except ApiError (PageResponse Project))
      (mrApi : Int → Int → Except ApiError (PageResponse MergeRequest))
      (innerFuel fuel : Nat) (page : Int) (acc : List Project) (reqs : List Int)
      (resp : PageResponse Project) (enriched : List Project) (t : List String),
      projApi page = Except.ok resp → resp.xNextPage = "" :: t →
      enrichPage mrApi innerFuel resp.items = some (Except.ok enriched) →
      getRepositoriesLoop projApi mrApi innerFuel (fuel + 1) page acc reqs =
        some (Except.ok (acc ++ enriched, reqs ++ [page]))) := by
  constructor
  · intro api page fuel acc reqs resp t h1 h2
    simp [fetchLoop, h1, h2]
  · intro projApi mrApi innerFuel fuel page acc reqs resp enriched t h1 h2 h3
    simp [getRepositoriesLoop, h1, h2, h3]

/-- A merge-request endpoint answering every request with one empty page and
an empty continuation signal. -/
def emptyMrApi : Int → Int → Except ApiError (PageResponse MergeRequest) :=
  fun _ _ => Except.ok { items := [], xNextPage := [""] }

/-- A single-argument endpoint answering with one empty page and an empty
continuation signal. -/
def emptySignalApi : Int → Except ApiError (PageResponse MergeRequest) :=
  fun _ => Except.ok { items := [], xNextPage := [""] }

/-- A projects endpoint answering with one empty page and an empty
continuation signal. -/
def emptySignalProjApi : Int → Except ApiError (PageResponse Project) :=
  fun _ => Except.ok { items := [], xNextPage := [""] }

theorem c2_witness :
    fetchLoop emptySignalApi 1 1 [] [] = some (Except.ok ([], [(1 : Int)])) ∧
    getRepositoriesLoop emptySignalProjApi emptyMrApi 1 1 1 [] [] =
      some (Except.ok ([], [(1 : Int)])) :=
  ⟨c2_amended_empty_signal_terminates.1 emptySignalApi 1 0 [] [] ⟨[], [""]⟩ [] rfl rfl,
   c2_amended_empty_signal_terminates.2 emptySignalProjApi emptyMrApi 1 0 1 [] []
     ⟨[], [""]⟩ [] [] rfl rfl rfl⟩

/-- Claim C3: a continuation signal which is present but not parseable as an
integer makes both fetch loops end in the Atoi fatal error; the partial
accumulated sequence is not returned as a complete result. -/
theorem c3_unparsable_signal_is_fatal :
    (∀ (api : Int → Except ApiError (PageResponse MergeRequest)) (page : Int)
      (fuel : Nat) (acc : List MergeRequest) (reqs : List Int)
      (resp : PageResponse MergeRequest) (s : String) (t : List String),
      api page = Except.ok resp → resp.xNextPage = s :: t → s ≠ "" →
      goAtoi s = none →
      fetchLoop api (fuel + 1) page acc reqs =
        some (Except.error FetchError.fatalAtoi)) ∧
    (∀ (projApi : Int → Except ApiError (PageResponse Project))
      (mrApi : Int → Int → Except ApiError (PageResponse MergeRequest))
      (innerFuel fuel : Nat) (page : Int) (acc : List Project) (reqs : List Int)
      (resp : PageResponse Project) (enriched : List Project) (s : String)
      (t : List String),
      projApi page = Except.ok resp →
      enrichPage mrApi innerFuel resp.items = some (Except.ok enriched) →
      resp.xNextPage = s :: t → s ≠ "" → goAtoi s = none →
      getRepositoriesLoop projApi mrApi innerFuel (fuel + 1) page acc reqs =
        some (Except.error FetchError.fatalAtoi)) := by
  constructor
  · intro api page fuel acc reqs resp s t h1 h2 h3 h4
    simp [fetchLoop, h1, h2, h3, h4]
  · intro projApi mrApi innerFuel fuel page acc reqs resp enriched s t h1 h2 h3 h4 h5
    simp [getRepositoriesLoop, h1, h2, h3, h4, h5]

/-- An endpoint whose continuation signal is the unparsable string abc. -/
def abcSignalApi : Int → Except ApiError (PageResponse MergeRequest) :=
  fun _ => Except.ok { items := [], xNextPage := ["abc"] }

/-- A projects endpoint whose continuation signal is the unparsable abc. -/
def abcSignalProjApi : Int → Except ApiError (PageResponse Project) :=
  fun _ => Except.ok { items := [], xNextPage := ["abc"] }

theorem c3_witness :
    fetchLoop abcSignalApi 1 1 [] [] = some (Except.error FetchError.fatalAtoi) ∧
    getRepositoriesLoop abcSignalProjApi emptyMrApi 1 1 1 [] [] =
      some (Except.error FetchError.fatalAtoi) :=
  ⟨c3_unparsable_signal_is_fatal.1 abcSignalApi 1 0 [] [] ⟨[], ["abc"]⟩ "abc" []
     rfl rfl (by decide) (by decide),
   c3_unparsable_signal_is_fatal.2 abcSignalProjApi emptyMrApi 1 0 1 [] []
     ⟨[], ["abc"]⟩ [] "abc" [] rfl rfl rfl (by decide) (by decide)⟩

/-- A merge request used by the C5 counterexample page at index 0. -/
def c5Mr : MergeRequest :=
  { title := "t", state := "opened", mergeStatus := "can_be_merged",
    targetBranch := "main", createdAt := 0, updatedAt := 0 }

/-- An endpoint whose page 1 carries the continuation signal 0 and whose page
0 exists and ends the pagination. -/
def zeroSignalApi : Int → Except ApiError (PageResponse MergeRequest) := fun p =>
  if p = 1 then Except.ok { items := [], xNextPage := ["0"] }
  else if p = 0 then Except.ok { items := [c5Mr], xNextPage := [""] }
  else Except.error ApiError.transport

/-- Claim C5 counterexample: the signal value 0 — parseable but not positive —
IS accepted as a next page index: the loop goes on to request page 0 (the
request trace is 1 then 0) and returns its items. -/
theorem c5_counterexample :
    fetchLoop zeroSignalApi 2 1 [] [] =
      some (Except.ok ([c5Mr], [(1 : Int), (0 : Int)])) := rfl

/-- Claim C5 (amended): for every response whose continuation signal parses as
an integer n — positive or not — both fetch loops continue and the next page
requested has page index exactly n. -/
theorem c5_amended_parseable_signal_continues :
    (∀ (api : Int → Except ApiError (PageResponse MergeRequest)) (page : Int)
      (fuel : Nat) (acc : List MergeRequest) (reqs : List Int)
      (resp : PageResponse MergeRequest) (s : String) (t : List String) (n : Int),
      api page = Except.ok resp → resp.xNextPage = s :: t → s ≠ "" →
      goAtoi s = some n →
      fetchLoop api (fuel + 1) page acc reqs =
        fetchLoop api fuel n (acc ++ resp.items) (reqs ++ [page])) ∧
    (∀ (projApi : Int → Except ApiError (PageResponse Project))
      (mrApi : Int → Int → Except ApiError (PageResponse MergeRequest))
      (innerFuel fuel : Nat) (page : Int) (acc : List Project) (reqs : List Int)
      (resp : PageResponse Project) (enriched : List Project) (s : String)
      (t : List String) (n : Int),
      projApi page = Except.ok resp →
      enrichPage mrApi innerFuel resp.items = some (Except.ok enriched) →
      resp.xNextPage = s :: t → s ≠ "" → goAtoi s = some n →
      getRepositoriesLoop projApi mrApi innerFuel (fuel + 1) page acc reqs =
        getRepositoriesLoop projApi mrApi innerFuel fuel n (acc ++ enriched)
          (reqs ++ [page])) := by
  constructor
  · intro api page fuel acc reqs resp s t n h1 h2 h3 h4
    simp [fetchLoop, h1, h2, h3, h4]
  · intro projApi mrApi innerFuel fuel page acc reqs resp enriched s t n h1 h2 h3 h4 h5
    simp [getRepositoriesLoop, h1, h2, h3, h4, h5]

/-- An endpoint whose page 1 carries the continuation signal 2. -/
def twoSignalApi : Int → Except ApiError (PageResponse MergeRequest) := fun p =>
  if p = 1 then Except.ok { items := [], xNextPage := ["2"] }
  else Except.ok { items := [], xNextPage := [""] }

/-- A projects endpoint whose page 1 carries the continuation signal 2. -/
def twoSignalProjApi : Int → Except ApiError (PageResponse Project) := fun p =>
  if p = 1 then Except.ok { items := [], xNextPage := ["2"] }
  else Except.ok { items := [], xNextPage := [""] }

theorem c5_witness :
    fetchLoop twoSignalApi 2 1 [] [] = fetchLoop twoSignalApi 1 2 [] [(1 : Int)] ∧
    getRepositoriesLoop twoSignalProjApi emptyMrApi 1 2 1 [] [] =
      getRepositoriesLoop twoSignalProjApi emptyMrApi 1 1 2 [] [(1 : Int)] :=
  ⟨c5_amended_parseable_signal_continues.1 twoSignalApi 1 1 [] [] ⟨[], ["2"]⟩ "2" [] 2
     rfl rfl (by decide) (by decide),
   c5_amended_parseable_signal_continues.2 twoSignalProjApi emptyMrApi 1 1 1 [] []
     ⟨[], ["2"]⟩ [] "2" [] 2 rfl rfl rfl (by decide) (by decide)⟩

/-! ### Nested fan-out and completeness of enrichment -/

/-- Claim C4: given one project page containing 2 projects, where the
merge-request fetch returns 3 items for the first project and 0 for the
second, the final collection contains exactly those 2 projects in order, the
first carrying the 3 merge requests in page order and the second none; the
merge requests are attached before the outer loop reads the continuation
signal, so the single page request [1] is the whole trace. -/
theorem c4_nested_fanout
    (p1 p2 : Project) (m1 m2 m3 : MergeRequest)
    (projApi : Int → Except ApiError (PageResponse Project))
    (mrApi : Int → Int → Except ApiError (PageResponse MergeRequest))
    (innerFuel fuel : Nat) (r1 r2 : List Int)
    (hproj : projApi 1 = Except.ok { items := [p1, p2], xNextPage := [""] })
    (h1 : p1.getMergeRequests mrApi innerFuel = some (Except.ok ([m1, m2, m3], r1)))
    (h2 : p2.getMergeRequests mrApi innerFuel = some (Except.ok ([], r2)))
    (hfuel : 1 ≤ fuel) :
    getRepositories projApi mrApi innerFuel fuel =
      some (Except.ok ([p1.setMergeRequests [m1, m2, m3], p2.setMergeRequests []],
        [(1 : Int)])) ∧
    (p1.setMergeRequests [m1, m2, m3]).mergeRequests.length = 3 ∧
    (p2.setMergeRequests []).mergeRequests.length = 0 := by
  obtain ⟨fl, rfl⟩ : ∃ fl, fuel = fl + 1 := ⟨fuel - 1, by omega⟩
  refine ⟨?_, rfl, rfl⟩
  unfold getRepositories
  simp [getRepositoriesLoop, hproj, enrichPage, h1, h2]

/-- First project of the concrete C4 scenario. -/
def c4P1 : Project :=
  { id := 1, pathWithNamespace := "g/a", starCount := 0, forkCount := 0,
    openIssueCount := 0, lastActivityAt := 0, statistics := ⟨0, 0, 0, 0, 0⟩,
    mergeRequests := [] }

/-- Second project of the concrete C4 scenario. -/
def c4P2 : Project :=
  { id := 2, pathWithNamespace := "g/b", starCount := 0, forkCount := 0,
    openIssueCount := 0, lastActivityAt := 0, statistics := ⟨0, 0, 0, 0, 0⟩,
    mergeRequests := [] }

/-- Merge requests of the concrete C4 scenario. -/
def c4M1 : MergeRequest :=
  { title := "a", state := "opened", mergeStatus := "can_be_merged",
    targetBranch := "main", createdAt := 0, updatedAt := 0 }

def c4M2 : MergeRequest :=
  { title := "b", state := "merged", mergeStatus := "can_be_merged",
    targetBranch := "main", createdAt := 0, updatedAt := 0 }

def c4M3 : MergeRequest :=
  { title := "c", state := "closed", mergeStatus := "cannot_be_merged",
    targetBranch := "dev", createdAt := 0, updatedAt := 0 }

/-- Projects endpoint of the concrete C4 scenario: one page, two projects. -/
def c4ProjApi : Int → Except ApiError (PageResponse Project) :=
  fun _ => Except.ok { items := [c4P1, c4P2], xNextPage := [""] }

/-- Merge-request endpoint of the concrete C4 scenario: three items for
project id 1, none otherwise. -/
def c4MrApi : Int → Int → Except ApiError (PageResponse MergeRequest) :=
  fun id _ =>
    if id = 1 then Except.ok { items := [c4M1, c4M2, c4M3], xNextPage := [""] }
    else Except.ok { items := [], xNextPage := [""] }

theorem c4_witness :
    getRepositories c4ProjApi c4MrApi 1 1 =
      some (Except.ok ([c4P1.setMergeRequests [c4M1, c4M2, c4M3],
        c4P2.setMergeRequests []], [(1 : Int)])) ∧
    (c4P1.setMergeRequests [c4M1, c4M2, c4M3]).mergeRequests.length = 3 ∧
    (c4P2.setMergeRequests []).mergeRequests.length = 0 :=
  c4_nested_fanout c4P1 c4P2 c4M1 c4M2 c4M3 c4ProjApi c4MrApi 1 1
    [(1 : Int)] [(1 : Int)] rfl rfl rfl (by decide)

/-- Every project emitted by the enrichment loop carries exactly the complete
result of its own merge-request fetch. -/
theorem enrichPage_all_enriched
    (mrApi : Int → Int → Except ApiError (PageResponse MergeRequest))
    (innerFuel : Nat) :
    ∀ (l l' : List Project), enrichPage mrApi innerFuel l = some (Except.ok l') →
      ∀ p ∈ l', ∃ r, p.getMergeRequests mrApi innerFuel =
        some (Except.ok (p.mergeRequests, r)) := by
  intro l
  induction l with
  | nil =>
    intro l' h p hp
    simp only [enrichPage, Option.some.injEq, Except.ok.injEq] at h
    subst h
    simp at hp
  | cons q rest ih =>
    intro l' h p hp
    simp only [enrichPage] at h
    rcases hq : q.getMergeRequests mrApi innerFuel with _ | e | ⟨mrs, tr⟩
    · rw [hq] at h; simp at h
    · rw [hq] at h; simp at h
    · rw [hq] at h
      rcases hrest : enrichPage mrApi innerFuel rest with _ | e | ps
      · rw [hrest] at h; simp at h
      · rw [hrest] at h; simp at h
      · rw [hrest] at h
        simp only [Option.some.injEq, Except.ok.injEq] at h
        subst h
        rcases List.mem_cons.mp hp with rfl | hmem
        · exact ⟨tr, hq⟩
        · exact ih ps hrest p hmem

/-- Invariant of the repository loop: a normally returned collection only
contains projects whose merge-request field is the complete result of their
own merge-request fetch. -/
theorem getRepositoriesLoop_complete
    (projApi : Int → Except ApiError (PageResponse Project))
    (mrApi : Int → Int → Except ApiError (PageResponse MergeRequest))
    (innerFuel : Nat) :
    ∀ (fuel : Nat) (page : Int) (acc : List Project) (reqs : List Int)
      (ps : List Project) (rs : List Int),
      getRepositoriesLoop projApi mrApi innerFuel fuel page acc reqs =
        some (Except.ok (ps, rs)) →
      (∀ p ∈ acc, ∃ r, p.getMergeRequests mrApi innerFuel =
        some (Except.ok (p.mergeRequests, r))) →
      ∀ p ∈ ps, ∃ r, p.getMergeRequests mrApi innerFuel =
        some (Except.ok (p.mergeRequests, r)) := by
  intro fuel
  induction fuel with
  | zero =>
    intro page acc reqs ps rs h hacc p hp
    simp [getRepositoriesLoop] at h
  | succ fl ih =>
    intro page acc reqs ps rs h hacc p hp
    simp only [getRepositoriesLoop] at h
    rcases hapi : projApi page with e | resp
    · cases e <;> simp [hapi] at h
    · rcases henr : enrichPage mrApi innerFuel resp.items with _ | e | enriched
      · simp [hapi, henr] at h
      · simp [hapi, henr] at h
      · rcases hx : resp.xNextPage with _ | ⟨hd, tl⟩
        · simp [hapi, henr, hx] at h
        · by_cases hhd : hd = ""
          · subst hhd
            simp only [hapi, henr, hx, if_pos, Option.some.injEq,
              Except.ok.injEq, Prod.mk.injEq, if_true, eq_self_iff_true] at h
            obtain ⟨hps, hrs⟩ := h
            subst hps
            rcases List.mem_append.mp hp with hmem | hmem
            · exact hacc p hmem
            · exact enrichPage_all_enriched mrApi innerFuel resp.items enriched henr p hmem
          · rcases hat : goAtoi hd with _ | n
            · simp [hapi, henr, hx, hhd, hat] at h
            · simp only [hapi, henr, hx, hat, hhd, if_false, eq_self_iff_true] at h
              refine ih n (acc ++ enriched) (reqs ++ [page]) ps rs h ?_ p hp
              intro q hq
              rcases List.mem_append.mp hq with hmem | hmem
              · exact hacc q hmem
              · exact enrichPage_all_enriched mrApi innerFuel resp.items enriched henr q hmem

/-- Claim C8: a poll cycle never yields a partially enriched collection: when
GetRepositories returns a collection (rather than a fatal error or
non-termination), every project in it carries the complete result of its own
merge-request fetch; any transport, decode or protocol error at any point
yields an error value carrying no collection at all. -/
theorem c8_no_partial_enrichment
    (projApi : Int → Except ApiError (PageResponse Project))
    (mrApi : Int → Int → Except ApiError (PageResponse MergeRequest))
    (innerFuel fuel : Nat) (ps : List Project) (rs : List Int)
    (h : getRepositories projApi mrApi innerFuel fuel = some (Except.ok (ps, rs))) :
    ∀ p ∈ ps, ∃ r, p.getMergeRequests mrApi innerFuel =
      some (Except.ok (p.mergeRequests, r)) :=
  getRepositoriesLoop_complete projApi mrApi innerFuel fuel 1 [] [] ps rs h
    (by intro p hp; simp at hp)

/-- Projects endpoint with a single one-project page, for the C8 witness. -/
def singleProjApi : Int → Except ApiError (PageResponse Project) :=
  fun _ => Except.ok { items := [c4P1], xNextPage := [""] }

theorem c8_witness :
    ∃ r, (c4P1.setMergeRequests []).getMergeRequests emptyMrApi 1 =
      some (Except.ok ((c4P1.setMergeRequests []).mergeRequests, r)) :=
  c8_no_partial_enrichment singleProjApi emptyMrApi 1 1
    [c4P1.setMergeRequests []] [(1 : Int)] rfl (c4P1.setMergeRequests []) (by simp)

/-! ### Rendering (PrometheusStats) -/

/-- Per-character action of the regex replacement in src/project.go line 54:
the pattern matches one slash, each match is replaced by three underscores,
all other characters pass through. -/
def normChar (c : Char) : List Char := if c = '/' then ['_', '_', '_'] else [c]

/-- Embeds the label computation of PrometheusStats: ReplaceAllString of the
slash pattern by three underscores over the project path. -/
def normalizePath (s : String) : String := String.mk (s.toList.flatMap normChar)

theorem normalizePath_example : normalizePath "group/sub/repo" = "group___sub___repo" := by
  decide

/-- One rendered counter metric line (without its leading newline): the
format string of src/project.go lines 56-62 and 68. -/
def counterLine (name path : String) (value : Int) : String :=
  name ++ "\x7brepo=\"" ++ path ++ "\"\x7d " ++ toString value

/-- One rendered merge-request metric line (without its leading newline): the
format string of src/project.go line 65. -/
def mergeRequestLine (path : String) (mr : MergeRequest) : String :=
  "gitlab_project_merge_request\x7brepo=\"" ++ path ++ "\", state=\"" ++ mr.state ++
    "\", merge_status=\"" ++ mr.mergeStatus ++ "\", target_branch=\"" ++
    mr.targetBranch ++ "\"\x7d 1"

/-- Embeds the Go method (project Project) PrometheusStats: the chain of
Sprintf calls, each prepending the accumulated string and a newline to the
next line, the loop over merge requests between the seventh counter and the
last-activity line. -/
def Project.prometheusStats (project : Project) : String :=
  let path := normalizePath project.pathWithNamespace
  let stats := ""
  let stats := stats ++ "\n" ++ counterLine "gitlab_project_stars" path project.starCount
  let stats := stats ++ "\n" ++ counterLine "gitlab_project_forks" path project.forkCount
  let stats := stats ++ "\n" ++
    counterLine "gitlab_project_commit_count" path project.statistics.commitCount
  let stats := stats ++ "\n" ++
    counterLine "gitlab_project_storage_size" path project.statistics.storageSize
  let stats := stats ++ "\n" ++
    counterLine "gitlab_project_repository_size" path project.statistics.repositorySize
  let stats := stats ++ "\n" ++
    counterLine "gitlab_project_lfs_object_size" path project.statistics.lfsObjectSize
  let stats := stats ++ "\n" ++
    counterLine "gitlab_project_job_artifacts_size" path project.statistics.jobArtifactsSize
  let stats := project.mergeRequests.foldl
    (fun s mr => s ++ "\n" ++ mergeRequestLine path mr) stats
  stats ++ "\n" ++ counterLine "gitlab_project_last_activity" path project.lastActivityAt

/-- The metric lines preceding the last-activity line, in rendering order:
the seven plain counter lines, then one line per merge request. -/
def Project.metricBodyLines (project : Project) : List String :=
  let path := normalizePath project.pathWithNamespace
  [counterLine "gitlab_project_stars" path project.starCount,
   counterLine "gitlab_project_forks" path project.forkCount,
   counterLine "gitlab_project_commit_count" path project.statistics.commitCount,
   counterLine "gitlab_project_storage_size" path project.statistics.storageSize,
   counterLine "gitlab_project_repository_size" path project.statistics.repositorySize,
   counterLine "gitlab_project_lfs_object_size" path project.statistics.lfsObjectSize,
   counterLine "gitlab_project_job_artifacts_size" path project.statistics.jobArtifactsSize] ++
  project.mergeRequests.map (mergeRequestLine path)

/-- The last-activity line, rendered last. -/
def Project.lastActivityLine (project : Project) : String :=
  counterLine "gitlab_project_last_activity" (normalizePath project.pathWithNamespace)
    project.lastActivityAt

/-- All metric lines of one project in rendering order: seven counter lines,
one line per merge request, and the last-activity line — eight counter lines
in total plus the merge-request lines, all keyed by the normalized path. -/
def Project.metricLines (project : Project) : List String :=
  project.metricBodyLines ++ [project.lastActivityLine]

/-- The newline-prefixed concatenation of a list of lines. -/
def linesText : List String → String
  | [] => ""
  | l :: ls => "\n" ++ l ++ linesText ls

theorem linesText_append (a b : List String) :
    linesText (a ++ b) = linesText a ++ linesText b := by
  induction a with
  | nil => simp [linesText, String.empty_append]
  | cons l ls ih =>
    simp only [List.cons_append, linesText, String.append_assoc]
    exact congrArg (fun x => "\n" ++ (l ++ x)) ih

theorem foldl_mergeRequestLines (path : String) :
    ∀ (l : List MergeRequest) (s : String),
      List.foldl (fun acc mr => acc ++ "\n" ++ mergeRequestLine path mr) s l =
        s ++ linesText (l.map (mergeRequestLine path)) := by
  intro l
  induction l with
  | nil => intro s; simp [linesText, String.append_empty]
  | cons mr rest ih =>
    intro s
    rw [List.foldl_cons, ih]
    simp only [List.map_cons, linesText, String.append_assoc]

/-- The Sprintf chain of PrometheusStats renders exactly the metric lines, in
order, each preceded by one newline. -/
theorem prometheusStats_eq_linesText (p : Project) :
    p.prometheusStats = linesText p.metricLines := by
  unfold Project.prometheusStats Project.metricLines Project.metricBodyLines
    Project.lastActivityLine
  simp only [foldl_mergeRequestLines]
  simp only [List.append_eq, linesText_append, linesText, List.cons_append,
    List.nil_append, String.append_assoc, String.empty_append, String.append_empty]

/-- Claim C7: the rendered metrics text of every project consists of exactly
one line for each of the eight counters (stars, forks, commit count, storage
size, repository size, LFS object size, job-artifact size, last-activity) plus
exactly one line per merge request with its state, merge-status and
target-branch labels, each line keyed by the normalized project path: the text
is the newline-joined metricLines list, whose length is 8 plus the number of
merge requests. -/
theorem c7_exact_metric_lines (p : Project) :
    p.prometheusStats = linesText p.metricLines ∧
    p.metricLines.length = 8 + p.mergeRequests.length := by
  refine ⟨prometheusStats_eq_linesText p, ?_⟩
  simp only [Project.metricLines, Project.metricBodyLines, List.length_append,
    List.length_cons, List.length_nil, List.length_map, List.length_singleton]
  omega

theorem slash_not_mem_normChar (a c : Char) (hc : c ∈ normChar a) : c ≠ '/' := by
  unfold normChar at hc
  by_cases ha : a = '/'
  · rw [if_pos ha] at hc
    simp only [List.mem_cons, List.not_mem_nil, or_false] at hc
    rcases hc with rfl | rfl | rfl <;> decide
  · rw [if_neg ha] at hc
    simp only [List.mem_singleton] at hc
    subst hc
    exact ha

theorem normalizePath_no_slash (s : String) :
    ∀ c ∈ (normalizePath s).toList, c ≠ '/' := by
  intro c hc
  have hc2 : c ∈ s.toList.flatMap normChar := hc
  obtain ⟨a, _, hcc⟩ := List.mem_flatMap.mp hc2
  exact slash_not_mem_normChar a c hcc

theorem flatMap_normChar_id (l : List Char) (h : ∀ c ∈ l, c ≠ '/') :
    l.flatMap normChar = l := by
  induction l with
  | nil => rfl
  | cons c cs ih =>
    rw [List.flatMap_cons]
    have hc : normChar c = [c] := by
      simp [normChar, h c (List.mem_cons_self c cs)]
    rw [hc, ih (fun d hd => h d (List.mem_cons_of_mem c hd))]
    rfl

theorem string_mk_toList (t : String) : String.mk t.toList = t := rfl

theorem normalizePath_idempotent (s : String) :
    normalizePath (normalizePath s) = normalizePath s := by
  show String.mk ((normalizePath s).toList.flatMap normChar) = normalizePath s
  rw [flatMap_normChar_id _ (normalizePath_no_slash s)]
  exact string_mk_toList _

/-- Claim C6: for every project whose namespaced path contains a slash, the
rendered label replaces every slash: the normalized label contains no slash at
all, and normalizing the label a second time leaves it unchanged (the
normalization is idempotent). -/
theorem c6_normalization_no_slash_idempotent (p : Project)
    (_slash : '/' ∈ p.pathWithNamespace.toList) :
    '/' ∉ (normalizePath p.pathWithNamespace).toList ∧
    normalizePath (normalizePath p.pathWithNamespace) =
      normalizePath p.pathWithNamespace :=
  ⟨fun hmem => normalizePath_no_slash p.pathWithNamespace '/' hmem rfl,
   normalizePath_idempotent p.pathWithNamespace⟩

/-- A project with a multi-segment namespaced path, for the C6 witness. -/
def c6Project : Project :=
  { id := 42, pathWithNamespace := "group/sub/repo", starCount := 5, forkCount := 1,
    openIssueCount := 0, lastActivityAt := 0, statistics := ⟨0, 0, 0, 0, 0⟩,
    mergeRequests := [] }

theorem c6_witness :
    '/' ∈ c6Project.pathWithNamespace.toList ∧
    ('/' ∉ (normalizePath c6Project.pathWithNamespace).toList ∧
     normalizePath (normalizePath c6Project.pathWithNamespace) =
       normalizePath c6Project.pathWithNamespace) :=
  ⟨by decide, c6_normalization_no_slash_idempotent c6Project (by decide)⟩

/-- Claim C10: the rendered metrics string of every project begins with a
newline character; it is the body lines (the seven other counter lines, then
one line per merge request, each merge-request line carrying the constant
sample value 1) followed by the last-activity line as the final line. -/
theorem c10_newline_prefix_last_activity_final (p : Project) :
    (∃ r : String, p.prometheusStats = "\n" ++ r) ∧
    p.prometheusStats = linesText p.metricBodyLines ++ "\n" ++ p.lastActivityLine ∧
    ∀ mr ∈ p.mergeRequests, ∃ s : String,
      mergeRequestLine (normalizePath p.pathWithNamespace) mr = s ++ " 1" := by
  have hmain : p.prometheusStats =
      linesText p.metricBodyLines ++ "\n" ++ p.lastActivityLine := by
    rw [prometheusStats_eq_linesText, Project.metricLines, linesText_append]
    simp only [linesText, String.append_empty, String.append_assoc]
  refine ⟨?_, hmain, ?_⟩
  · have hbody : p.metricBodyLines =
        counterLine "gitlab_project_stars" (normalizePath p.pathWithNamespace)
          p.starCount :: ([counterLine "gitlab_project_forks"
            (normalizePath p.pathWithNamespace) p.forkCount,
          counterLine "gitlab_project_commit_count" (normalizePath p.pathWithNamespace)
            p.statistics.commitCount,
          counterLine "gitlab_project_storage_size" (normalizePath p.pathWithNamespace)
            p.statistics.storageSize,
          counterLine "gitlab_project_repository_size" (normalizePath p.pathWithNamespace)
            p.statistics.repositorySize,
          counterLine "gitlab_project_lfs_object_size" (normalizePath p.pathWithNamespace)
            p.statistics.lfsObjectSize,
          counterLine "gitlab_project_job_artifacts_size" (normalizePath p.pathWithNamespace)
            p.statistics.jobArtifactsSize] ++
          p.mergeRequests.map (mergeRequestLine (normalizePath p.pathWithNamespace))) := rfl
    refine ⟨counterLine "gitlab_project_stars" (normalizePath p.pathWithNamespace)
      p.starCount ++ (linesText ([counterLine "gitlab_project_forks"
        (normalizePath p.pathWithNamespace) p.forkCount,
      counterLine "gitlab_project_commit_count" (normalizePath p.pathWithNamespace)
        p.statistics.commitCount,
      counterLine "gitlab_project_storage_size" (normalizePath p.pathWithNamespace)
        p.statistics.storageSize,
      counterLine "gitlab_project_repository_size" (normalizePath p.pathWithNamespace)
        p.statistics.repositorySize,
      counterLine "gitlab_project_lfs_object_size" (normalizePath p.pathWithNamespace)
        p.statistics.lfsObjectSize,
      counterLine "gitlab_project_job_artifacts_size" (normalizePath p.pathWithNamespace)
        p.statistics.jobArtifactsSize] ++
      p.mergeRequests.map (mergeRequestLine (normalizePath p.pathWithNamespace))) ++
      ("\n" ++ p.lastActivityLine)), ?_⟩
    rw [hmain, hbody]
    simp only [linesText, String.append_assoc]
  · intro mr _
    refine ⟨"gitlab_project_merge_request\x7brepo=\"" ++
      normalizePath p.pathWithNamespace ++ "\", state=\"" ++ mr.state ++
      "\", merge_status=\"" ++ mr.mergeStatus ++ "\", target_branch=\"" ++
      mr.targetBranch ++ "\"\x7d", ?_⟩
    unfold mergeRequestLine
    have hsplit : ("\"\x7d 1" : String) = "\"\x7d" ++ " 1" := by decide
    rw [hsplit]
    simp only [String.append_assoc]

/-! ### Frame property of the merge-request fetcher -/

/-- Claim C9: the merge-request fetcher reads nothing of the program state
beyond the network oracle and the project's id — two projects with equal ids
get identical results, so repeated invocations for different project ids are
independent of one another — and the only mutation in the pipeline,
SetMergeRequests, changes exactly the merge-request field, leaving every other
field of the project unchanged. -/
theorem c9_fetcher_pure_and_frame
    (api : Int → Int → Except ApiError (PageResponse MergeRequest)) (fuel : Nat)
    (p q : Project) (h : p.id = q.id) :
    p.getMergeRequests api fuel = q.getMergeRequests api fuel ∧
    ∀ mrs : List MergeRequest,
      (p.setMergeRequests mrs).id = p.id ∧
      (p.setMergeRequests mrs).pathWithNamespace = p.pathWithNamespace ∧
      (p.setMergeRequests mrs).starCount = p.starCount ∧
      (p.setMergeRequests mrs).forkCount = p.forkCount ∧
      (p.setMergeRequests mrs).openIssueCount = p.openIssueCount ∧
      (p.setMergeRequests mrs).lastActivityAt = p.lastActivityAt ∧
      (p.setMergeRequests mrs).statistics = p.statistics ∧
      (p.setMergeRequests mrs).mergeRequests = mrs := by
  refine ⟨?_, fun mrs => ⟨rfl, rfl, rfl, rfl, rfl, rfl, rfl, rfl⟩⟩
  unfold Project.getMergeRequests
  rw [h]

/-- A project sharing c4P1's id but differing in every other field, for the
C9 witness. -/
def c9Twin : Project :=
  { id := 1, pathWithNamespace := "other/where", starCount := 9, forkCount := 9,
    openIssueCount := 9, lastActivityAt := 9, statistics := ⟨9, 9, 9, 9, 9⟩,
    mergeRequests := [c5Mr] }

theorem c9_witness :
    c4P1.getMergeRequests emptyMrApi 2 = c9Twin.getMergeRequests emptyMrApi 2 ∧
    (c4P1.setMergeRequests [c5Mr]).mergeRequests = [c5Mr] :=
  ⟨(c9_fetcher_pure_and_frame emptyMrApi 2 c4P1 c9Twin rfl).1,
   ((c9_fetcher_pure_and_frame emptyMrApi 2 c4P1 c9Twin rfl).2 [c5Mr]).2.2.2.2.2.2.2⟩

end GitlabExporter
